import Mathlib

/-!
# Verification of the simplemqhttp lease-lifecycle adapter

Shallow embedding of the Go package `simplemqhttp` (files `conn.go`,
`transport.go`, `serializer.go`, the listener file, and `simplemq/message.go`).

Modelling conventions:
* Go byte strings are `List Nat` (each element a byte value `< 256`);
  where a buffer only ever holds ASCII text we use Lean `String`.
* Timestamps are `Int` unix milliseconds (`simplemq.Message.VisibilityTimeoutAt`
  is an `int64` of unix milliseconds; `time.Until(t)` at a fixed instant `now`
  is `t - now` milliseconds).  `time.Now()` is modelled as a fixed `now`
  parameter: the real clock only advances during a close/extend loop, which
  can only make the achieved slack larger, never smaller.
* External collaborators (the queue HTTP API reached through
  `simplemq.Client`, and Go's `net/http` response parser) are oracles passed
  in as explicit parameters: a scripted list or function of call outcomes.
  The queue operations a run actually issues are recorded in a `QueueCall`
  trace so that "exactly one delete", "no extend" are provable statements.
-/

/-- Go `error` values: we only ever inspect presence and message text. -/
abbrev GoErr := String

/-! ## base64 (Go `encoding/base64` StdEncoding), used by `BodyOnlySerializer` -/

/-- The standard base64 alphabet: sextet index to ASCII code
(`A-Z`, `a-z`, `0-9`, `+`, `/`). -/
def b64char (i : Nat) : Nat :=
  if i < 26 then 65 + i
  else if i < 52 then 97 + (i - 26)
  else if i < 62 then 48 + (i - 52)
  else if i = 62 then 43
  else 47

/-- Inverse alphabet lookup: ASCII code to sextet value, `none` for a
character outside the base64 alphabet. -/
def b64inv (c : Nat) : Option Nat :=
  if 65 ≤ c ∧ c ≤ 90 then some (c - 65)
  else if 97 ≤ c ∧ c ≤ 122 then some (26 + (c - 97))
  else if 48 ≤ c ∧ c ≤ 57 then some (52 + (c - 48))
  else if c = 43 then some 62
  else if c = 47 then some 63
  else none

/-- Model of `base64.StdEncoding.EncodeToString`: bytes to ASCII codes, with `=`
(ASCII 61) padding. -/
def b64encode : List Nat → List Nat
  | [] => []
  | [a] => [b64char (a / 4), b64char (a % 4 * 16), 61, 61]
  | [a, b] => [b64char (a / 4), b64char (a % 4 * 16 + b / 16), b64char (b % 16 * 4), 61]
  | a :: b :: c :: rest =>
      b64char (a / 4) :: b64char (a % 4 * 16 + b / 16) ::
      b64char (b % 16 * 4 + c / 64) :: b64char (c % 64) :: b64encode rest

/-- Core of the base64 decoder, after newline stripping: consumes
four-character quanta, `=` (ASCII 61) padding allowed only in the final
quantum; fails (`none`) on a length that is not a multiple of four, a
character outside the alphabet, or padding before the final quantum. -/
def b64decodeCore : List Nat → Option (List Nat)
  | [] => some []
  | a :: b :: c :: d :: rest =>
      if c = 61 ∧ d = 61 ∧ rest = [] then
        match b64inv a, b64inv b with
        | some x, some y => some [x * 4 + y / 16]
        | _, _ => none
      else if d = 61 ∧ rest = [] then
        match b64inv a, b64inv b, b64inv c with
        | some x, some y, some z => some [x * 4 + y / 16, y % 16 * 16 + z / 4]
        | _, _, _ => none
      else
        match b64inv a, b64inv b, b64inv c, b64inv d with
        | some x, some y, some z, some w =>
            (b64decodeCore rest).map
              (fun tail => (x * 4 + y / 16) :: (y % 16 * 16 + z / 4) :: (z % 4 * 64 + w) :: tail)
        | _, _, _, _ => none
  | _ => none

/-- Model of `base64.StdEncoding.DecodeString`: Go's decoder skips carriage
returns (13) and newlines (10) anywhere in the input, then decodes the
remaining characters in four-character quanta. -/
def b64decode (input : List Nat) : Option (List Nat) :=
  b64decodeCore (input.filter fun c => decide (c ≠ 13 ∧ c ≠ 10))

theorem b64inv_b64char {i : Nat} (h : i < 64) : b64inv (b64char i) = some i := by
  interval_cases i <;> rfl

theorem b64char_ne_pad (i : Nat) : b64char i ≠ 61 := by
  unfold b64char
  split
  · omega
  · split
    · omega
    · split
      · omega
      · split
        · omega
        · omega

/-- Round trip for the decoder core: decoding an encoded byte list
recovers the bytes. -/
theorem b64decodeCore_b64encode (l : List Nat) (hb : ∀ x ∈ l, x < 256) :
    b64decodeCore (b64encode l) = some l := by
  induction l using b64encode.induct with
  | case1 => rfl
  | case2 a =>
      have ha : a < 256 := hb a (by simp)
      rw [b64encode]
      rw [b64decodeCore]
      rw [if_pos ⟨rfl, rfl, rfl⟩, b64inv_b64char (by omega), b64inv_b64char (by omega)]
      simp only [Option.some.injEq, List.cons.injEq, and_true]
      omega
  | case3 a b =>
      have ha : a < 256 := hb a (by simp)
      have hb' : b < 256 := hb b (by simp)
      rw [b64encode]
      rw [b64decodeCore]
      rw [if_neg (fun h => b64char_ne_pad _ h.1), if_pos ⟨rfl, rfl⟩,
        b64inv_b64char (by omega), b64inv_b64char (by omega), b64inv_b64char (by omega)]
      simp only [Option.some.injEq, List.cons.injEq, and_true]
      constructor <;> omega
  | case4 a b c rest ih =>
      have ha : a < 256 := hb a (by simp)
      have hbb : b < 256 := hb b (by simp)
      have hc : c < 256 := hb c (by simp)
      have hrest : ∀ x ∈ rest, x < 256 := fun x hx => hb x (by simp [hx])
      rw [b64encode]
      rw [b64decodeCore]
      rw [if_neg (fun h => b64char_ne_pad _ h.1),
        if_neg (fun h => b64char_ne_pad _ h.1),
        b64inv_b64char (by omega), b64inv_b64char (by omega),
        b64inv_b64char (by omega), b64inv_b64char (by omega), ih hrest]
      simp only [Option.map_some', Option.some.injEq, List.cons.injEq, and_true]
      refine ⟨by omega, by omega, by omega⟩

theorem b64char_ge (i : Nat) : 43 ≤ b64char i := by
  unfold b64char
  split
  · omega
  · split
    · omega
    · split
      · omega
      · split
        · omega
        · omega

theorem b64encode_no_newline (l : List Nat) :
    ∀ x ∈ b64encode l, x ≠ 13 ∧ x ≠ 10 := by
  induction l using b64encode.induct with
  | case1 => simp [b64encode]
  | case2 a =>
      intro x hx
      rw [b64encode] at hx
      simp only [List.mem_cons, List.not_mem_nil, or_false] at hx
      rcases hx with rfl | rfl | rfl | rfl
      · have := b64char_ge (a / 4); omega
      · have := b64char_ge (a % 4 * 16); omega
      · omega
      · omega
  | case3 a b =>
      intro x hx
      rw [b64encode] at hx
      simp only [List.mem_cons, List.not_mem_nil, or_false] at hx
      rcases hx with rfl | rfl | rfl | rfl
      · have := b64char_ge (a / 4); omega
      · have := b64char_ge (a % 4 * 16 + b / 16); omega
      · have := b64char_ge (b % 16 * 4); omega
      · omega
  | case4 a b c rest ih =>
      intro x hx
      rw [b64encode] at hx
      simp only [List.mem_cons] at hx
      rcases hx with rfl | rfl | rfl | rfl | hx
      · have := b64char_ge (a / 4); omega
      · have := b64char_ge (a % 4 * 16 + b / 16); omega
      · have := b64char_ge (b % 16 * 4 + c / 64); omega
      · have := b64char_ge (c % 64); omega
      · exact ih x hx

/-- Round trip: decoding an encoded byte list recovers the bytes (the
encoder emits no newline characters, so the decoder's stripping pass is
the identity on its output). -/
theorem b64decode_b64encode (l : List Nat) (hb : ∀ x ∈ l, x < 256) :
    b64decode (b64encode l) = some l := by
  unfold b64decode
  rw [List.filter_eq_self.mpr
    (fun a ha => by simpa using b64encode_no_newline l a ha)]
  exact b64decodeCore_b64encode l hb

/-! ## `strconv.Atoi` (used for the Retry-After header in `Conn.Close`) -/

/-- Parse a non-empty all-digit character list into a number. -/
def parseDigits (cs : List Char) : Option Nat :=
  if cs = [] then none
  else
    cs.foldl
      (fun acc c =>
        match acc with
        | none => none
        | some n => if c.isDigit then some (n * 10 + (c.toNat - 48)) else none)
      (some 0)

/-- Go `strconv.Atoi` on a 64-bit platform: optional sign, then one or more
decimal digits, with the int64 range check; anything else is an error
(`none`). -/
def goAtoi (s : String) : Option Int :=
  match s.toList with
  | [] => none
  | '+' :: rest =>
      (parseDigits rest).bind fun n =>
        if n ≤ 2 ^ 63 - 1 then some (n : Int) else none
  | '-' :: rest =>
      (parseDigits rest).bind fun n =>
        if n ≤ 2 ^ 63 then some (-(n : Int)) else none
  | cs =>
      (parseDigits cs).bind fun n =>
        if n ≤ 2 ^ 63 - 1 then some (n : Int) else none

/-! ## `serializer.go`: `BodyOnlySerializer` -/

/-- The parts of Go's `*http.Request` that the serializer, `Conn.init` and
the claims touch.  `body = none` models a nil `req.Body`. -/
structure GoRequest where
  method : String
  urlPath : String
  header : List (String × String)
  body : Option (List Nat)
deriving Repr, DecidableEq

inductive SerializeErr
  /-- Model of `ErrTooLarge = errors.New("body too large")`. -/
  | tooLarge
deriving Repr, DecidableEq

/-- Model of `BodyOnlySerializer.Serialize` (serializer.go:24-49).  A nil request and
a failing body read have no counterpart in the pure model (`req.body` is the
bytes `io.ReadAll` returns): with a nil body the payload is the empty
string; otherwise the (optionally base64-encoded) body, rejected with
`ErrTooLarge` when the encoded form exceeds `256*1024` bytes. -/
def bodyOnlySerialize (noBase64 : Bool) (req : GoRequest) : Except SerializeErr (List Nat) :=
  match req.body with
  | none => .ok []
  | some bs =>
      if noBase64 then
        if bs.length > 256 * 1024 then .error .tooLarge else .ok bs
      else
        let encoded := b64encode bs
        if encoded.length > 256 * 1024 then .error .tooLarge else .ok encoded

/-- Go `http.NewRequest(method, url, body)`: fails only when the method is
invalid or the URL fails to parse.  `Deserialize` only ever calls it with
the constants `"POST"` and `"/"`, which pass both checks, so the model
checks just non-emptiness of the method (exact on every reachable input). -/
def http_NewRequest (method urlPath : String) (body : Option (List Nat)) :
    Except GoErr GoRequest :=
  if method = "" then .error "net/http: invalid method"
  else .ok { method := method, urlPath := urlPath, header := [], body := body }

/-- Model of `BodyOnlySerializer.Deserialize` (serializer.go:51-63): when base64 is
enabled, *try* to decode and silently fall back to the raw content on
decode failure; then build a `POST /` request whose body is the resulting
content. -/
def bodyOnlyDeserialize (noBase64 : Bool) (content : List Nat) : Except GoErr GoRequest :=
  let content2 :=
    if noBase64 then content
    else
      match b64decode content with
      | some decoded => decoded
      | none => content
  http_NewRequest "POST" "/" (some content2)

/-! ## `simplemq/message.go`: the message fields this subsystem reads -/

/-- Model of `simplemq.Message`, restricted to the fields `conn.go` and the listener
read.  Timestamps are unix milliseconds (`time.UnixMilli`). -/
structure Message where
  id : String
  content : List Nat
  createdAt : Int
  visibilityTimeoutAt : Int
deriving Repr, DecidableEq

/-! ## `conn.go`: the `Conn` lease-lifecycle policy -/

/-- A queue operation issued by the adapter, recorded in call order. -/
inductive QueueCall
  | deleteMessage (id : String)
  | extendVisibilityTimeout (id : String)
deriving Repr, DecidableEq

/-- The response fields `Conn.Close` reads off the parsed
`http.ReadResponse` result: the status code and
`resp.Header.Get("Retry-After")` (empty string when the header is absent). -/
structure GoResponse where
  statusCode : Int
  retryAfter : String
deriving Repr, DecidableEq

/-- Mutable `Conn` state that the close / deadline paths read and write:
the bound message (its lease deadline is updated by every successful
extend) and the accumulated response buffer.  The renewal goroutine is
cancelled and joined at the top of both paths, so it is modelled as already
stopped. -/
structure ConnState where
  msg : Message
  respBuffer : String
deriving Repr, DecidableEq

/-- Environment of one `Conn.Close` run: the outcome of every external
call it may issue, scripted up front.
* `readResponse` models this run's outcome of
  `http.ReadResponse(bufio.NewReader(&respBuffer), req)`: the parse result
  (`none` = error) together with the bytes that remain *unconsumed* in
  `respBuffer` afterwards (the bufio reader drains the buffer in 4096-byte
  reads and is then discarded, so the leftover is whatever lies beyond the
  reads the parse forced).
* `handleResponse` is the optional `ResponseHandler`; `some f` configured,
  `f resp = some e` means `HandleResponse` returned error `e`.
* `deleteResult` is the `client.DeleteMessage` outcome (`none` = success).
* `extendResults` are successive `client.ExtendVisibilityTimeout` outcomes,
  a success carrying the new `VisibilityTimeoutAt`.
* `now` is the close time in unix milliseconds. -/
structure CloseEnv where
  readResponse : Option GoResponse × String
  handleResponse : Option (GoResponse → Option GoErr)
  deleteResult : Option GoErr
  extendResults : List (Except GoErr Int)
  now : Int

/-- Result of one `Conn.Close` run: the returned error (`none` = nil), the
queue calls issued in order, and the state left behind. -/
structure CloseResult where
  ret : Option GoErr
  calls : List QueueCall
  state : ConnState
deriving Repr, DecidableEq

/-- Two's-complement wrap of an integer into the int64 range, as Go's
`time.Duration(seconds) * time.Second` multiplication wraps. -/
def wrapInt64 (n : Int) : Int := (n + 2 ^ 63) % 2 ^ 64 - 2 ^ 63

theorem wrapInt64_eq_self {n : Int} (h1 : -(2 ^ 63) ≤ n) (h2 : n ≤ 2 ^ 63 - 1) :
    wrapInt64 n = n := by
  unfold wrapInt64
  have h3 : (n + 2 ^ 63) % 2 ^ 64 = n + 2 ^ 63 :=
    Int.emod_eq_of_lt (by omega) (by omega)
  omega

/-- Go `time.Until(t)` at a fixed `now`, in nanoseconds, applied to a
millisecond difference `ms`: `time.Time.Sub` saturates to the maximum or
minimum `Duration` instead of wrapping. -/
def goUntilNs (ms : Int) : Int :=
  if ms * 1000000 > 2 ^ 63 - 1 then 2 ^ 63 - 1
  else if ms * 1000000 < -(2 ^ 63) then -(2 ^ 63)
  else ms * 1000000

/-- Leaving the Retry-After loop means the (saturating) remaining duration
is at least the requested delay; when `seconds * 1e9` fits in int64 this
gives the millisecond bound `d ≥ seconds * 1000`. -/
theorem retry_target_reached {d seconds : Int}
    (hlo : -(2 ^ 63) < seconds * 1000000000)
    (hhi : seconds * 1000000000 ≤ 2 ^ 63 - 1)
    (h : ¬(goUntilNs d < wrapInt64 (seconds * 1000000000))) :
    d ≥ seconds * 1000 := by
  rw [wrapInt64_eq_self (by omega) hhi] at h
  unfold goUntilNs at h
  split at h
  · rename_i h1
    omega
  · split at h
    · rename_i h1 h2
      omega
    · omega

/-- The Retry-After extend loop (conn.go:169-177):
`for time.Until(c.msg.VisibilityTimeoutTime()) < time.Duration(seconds)*time.Second`
issue an extend; a failure is logged and the loop gives up (close still
returns nil); a success updates the lease deadline.  The right-hand side of
the comparison is computed in int64 nanoseconds and *wraps* for
`seconds ≳ 9.22e9` (`wrapInt64`), while the left-hand side saturates
(`goUntilNs`).  Returns `none` when the scripted outcomes run out before
the loop finishes (the model cannot determine the remaining behaviour),
otherwise the final lease deadline and the extend calls issued. -/
def closeRetryLoop (now seconds : Int) (msgId : String) :
    Int → List (Except GoErr Int) → Option (Int × List QueueCall)
  | vis, script =>
      if goUntilNs (vis - now) < wrapInt64 (seconds * 1000000000) then
        match script with
        | [] => none
        | .error _ :: _ => some (vis, [.extendVisibilityTimeout msgId])
        | .ok newVis :: rest =>
            (closeRetryLoop now seconds msgId newVis rest).map
              (fun p => (p.1, .extendVisibilityTimeout msgId :: p.2))
      else some (vis, [])

/-- The handler step of `Conn.Close` (conn.go:147-152):
`if c.respHandler != nil { c.respHandler.HandleResponse(resp, c.req) }`,
reported as `none` when no handler is configured or it succeeded. -/
def handlerOutcome (h : Option (GoResponse → Option GoErr)) (resp : GoResponse) :
    Option GoErr :=
  match h with
  | none => none
  | some f => f resp

/-- Model of `Conn.Close` after a successful parse (conn.go:143-179): run the
optional response handler (its error is returned); on a 2xx status delete
the message (delete error is returned); otherwise on a non-empty numeric
Retry-After header run the extend loop; return nil.  `st1` is the state
with the response buffer already drained to the parse leftover. -/
def closeAfterParse (st1 : ConnState) (env : CloseEnv) (resp : GoResponse) :
    Option CloseResult :=
  match handlerOutcome env.handleResponse resp with
  | some e => some ⟨some ("failed to handle response: " ++ e), [], st1⟩
  | none =>
      if 200 ≤ resp.statusCode ∧ resp.statusCode < 300 then
        match env.deleteResult with
        | some e =>
            some ⟨some ("failed to delete message: " ++ e),
              [.deleteMessage st1.msg.id], st1⟩
        | none => some ⟨none, [.deleteMessage st1.msg.id], st1⟩
      else
        if resp.retryAfter ≠ "" then
          match goAtoi resp.retryAfter with
          | none => some ⟨none, [], st1⟩
          | some seconds =>
              (closeRetryLoop env.now seconds st1.msg.id
                  st1.msg.visibilityTimeoutAt env.extendResults).map
                (fun p =>
                  ⟨none, p.2,
                    { st1 with msg := { st1.msg with visibilityTimeoutAt := p.1 } }⟩)
        else some ⟨none, [], st1⟩

/-- Model of `Conn.Close` (conn.go:127-180).  Steps, in source order: cancel and join
the renewal loop; return nil on an empty response buffer; parse the buffer
(parse error is returned); then apply `closeAfterParse`.  Returns `none`
only when the scripted extend outcomes are exhausted. -/
def connClose (st : ConnState) (env : CloseEnv) : Option CloseResult :=
  if st.respBuffer = "" then some ⟨none, [], st⟩
  else
    match env.readResponse with
    | (none, leftover) =>
        some ⟨some "failed to serialize response", [],
          { st with respBuffer := leftover }⟩
    | (some resp, leftover) =>
        closeAfterParse { st with respBuffer := leftover } env resp

/-- Two sequential `Close` calls on the same connection (each against its
own scripted environment), concatenating the issued queue calls. -/
def connCloseTwice (st : ConnState) (env1 env2 : CloseEnv) :
    Option (Option GoErr × Option GoErr × List QueueCall) :=
  (connClose st env1).bind fun r1 =>
    (connClose r1.state env2).map fun r2 =>
      (r1.ret, r2.ret, r1.calls ++ r2.calls)

/-! ## `conn.go`: `Conn.SetDeadline` and friends -/

/-- Environment of one `SetDeadline` run: the outcome of the i-th
`ExtendVisibilityTimeout` call and the current time in unix milliseconds. -/
structure DeadlineEnv where
  extendAt : Nat → Except GoErr Int
  now : Int

/-- The deadline extend loop (conn.go:217-236):
`for attempts := 0; currentTimeout.Before(t) && attempts < maxAttempts; attempts++`
with `maxAttempts = 10`; an extend failure is returned as an error; a
success updates the lease deadline.  Arguments: target deadline (ms),
extend oracle, message id, next oracle index, remaining attempts, current
lease deadline.  Returns (error, final lease deadline, calls issued). -/
def setDeadlineLoop (tms : Int) (extendAt : Nat → Except GoErr Int) (msgId : String) :
    Nat → Nat → Int → Option GoErr × Int × List QueueCall
  | _, 0, cur => (none, cur, [])
  | idx, rem + 1, cur =>
      if cur < tms then
        match extendAt idx with
        | .error e =>
            (some ("failed to extend visibility timeout to deadline: " ++ e), cur,
              [.extendVisibilityTimeout msgId])
        | .ok newVis =>
            let r := setDeadlineLoop tms extendAt msgId (idx + 1) rem newVis
            (r.1, r.2.1, .extendVisibilityTimeout msgId :: r.2.2)
      else (none, cur, [])

/-- Model of `Conn.SetDeadline` (conn.go:193-244).  The renewal loop is cancelled and
joined first (modelled as already stopped).  `t = none` models the zero
`time.Time` (`t.IsZero()`); a deadline not in the future is a no-op; a
future deadline runs the bounded extend loop.  Returns (error, calls,
new state). -/
def connSetDeadline (st : ConnState) :
    Option Int → DeadlineEnv → Option GoErr × List QueueCall × ConnState
  | none, _ => (none, [], st)
  | some tms, env =>
      if tms - env.now ≤ 0 then (none, [], st)
      else
        let r := setDeadlineLoop tms env.extendAt st.msg.id 0 10 st.msg.visibilityTimeoutAt
        (r.1, r.2.2, { st with msg := { st.msg with visibilityTimeoutAt := r.2.1 } })

/-- Model of `Conn.SetReadDeadline` (conn.go:247-249): delegates to `SetDeadline`. -/
def connSetReadDeadline (st : ConnState) (t : Option Int) (env : DeadlineEnv) :
    Option GoErr × List QueueCall × ConnState :=
  connSetDeadline st t env

/-- Model of `Conn.SetWriteDeadline` (conn.go:252-254): delegates to `SetDeadline`. -/
def connSetWriteDeadline (st : ConnState) (t : Option Int) (env : DeadlineEnv) :
    Option GoErr × List QueueCall × ConnState :=
  connSetDeadline st t env

/-! ## `transport.go`: `Transport.RoundTrip` -/

/-- Model of `simplemq.APIError`: a structured queue-API error with numeric code and
message. -/
structure APIError where
  code : Int
  message : String
deriving Repr, DecidableEq

/-- Outcome classes of `client.SendMessage`: a structured `*simplemq.APIError`
(matched by `errors.As`) or any other error. -/
inductive SendErr
  | api (e : APIError)
  | other (e : GoErr)
deriving Repr, DecidableEq

inductive RoundTripErr
  /-- the serializer's error, returned unchanged (transport.go:48-50) -/
  | serializeFailed (e : SerializeErr)
  /-- a non-`APIError` send failure, returned unchanged (transport.go:55-57) -/
  | sendFailed (e : GoErr)
  /-- case where `http.ReadResponse` rejected the synthesized text (transport.go:80-83) -/
  | malformedStatus
deriving Repr, DecidableEq

/-- Stand-in for Go `t.Format(time.RFC3339)`: the claims only rely on the
header carrying (a rendering of) the creation time, so any function of the
millisecond timestamp serves. -/
def formatRFC3339 (ms : Int) : String := "rfc3339:" ++ toString ms

/-- The check `http.ReadResponse` applies to the status line synthesized as
`fmt.Sprintf("HTTP/1.1 %d %s", code, http.StatusText(code))`: the first
space-separated token after the proto — the decimal rendering of `code` —
must be exactly three characters, re-parse with `strconv.Atoi`, and be
non-negative (net/http rejects anything else as a malformed status code). -/
def statusLineOK (code : Int) : Bool :=
  (toString code).length = 3 && (goAtoi (toString code) == some code) && decide (0 ≤ code)

/-- Body admissibility in the `http.ReadResponse` re-parse: net/http
suppresses the response body — whatever the synthesized text carries —
when the originating request's method is HEAD, or the status is 1xx, 204
or 304 (RFC 7230 3.3). -/
def bodyAllowed (reqMethod : String) (code : Int) : Bool :=
  decide (¬(reqMethod = "HEAD" ∨ (100 ≤ code ∧ code < 200) ∨ code = 204 ∨ code = 304))

/-- The synthesized `*http.Response` of `Transport.RoundTrip`: status code,
headers (as written, unsorted), and plain-text body.  `Content-Length` uses
the byte length of the message, equal to `String.length` for ASCII text. -/
structure SynthResponse where
  statusCode : Int
  headers : List (String × String)
  body : String
deriving Repr, DecidableEq

/-- Environment of one `RoundTrip` run: the method of the request being
round-tripped (it is handed to `http.ReadResponse` and decides body
suppression), the serializer outcome and the `client.SendMessage`
outcome. -/
structure TransportEnv where
  reqMethod : String
  serializeResult : Except SerializeErr (List Nat)
  sendResult : Except SendErr Message

/-- Model of `Transport.RoundTrip` (transport.go:46-85): serialize (errors
propagated); send; on an `APIError` synthesize a response with the error's
code and message as plain-text body; on success synthesize a `202 Accepted`
with empty body and the queue/message headers; the synthesized text is then
re-parsed by `http.ReadResponse`, which fails exactly when the status code
does not render as a valid three-character status, and suppresses the body
for HEAD requests and 1xx/204/304 statuses (`bodyAllowed`). -/
def roundTrip (queue : String) (env : TransportEnv) : Except RoundTripErr SynthResponse :=
  match env.serializeResult with
  | .error e => .error (.serializeFailed e)
  | .ok _content =>
      match env.sendResult with
      | .error (.other e) => .error (.sendFailed e)
      | .error (.api apiErr) =>
          if statusLineOK apiErr.code then
            .ok { statusCode := apiErr.code,
                  headers := [("Content-Type", "text/plain"),
                              ("Content-Length", toString apiErr.message.length),
                              ("SimpleMQ-Queue-Name", queue)],
                  body := if bodyAllowed env.reqMethod apiErr.code then apiErr.message
                          else "" }
          else .error .malformedStatus
      | .ok msg =>
          .ok { statusCode := 202,
                headers := [("Content-Type", "text/plain"),
                            ("Content-Length", "0"),
                            ("SimpleMQ-Queue-Name", queue),
                            ("SimpleMQ-Message-ID", msg.id),
                            ("SimpleMQ-Message-Created", formatRFC3339 msg.createdAt)],
                body := "" }

/-! ## The listener: `Accept` -/

/-- Outcome classes of `client.ReceiveMessages`: `context.Canceled`
(matched by `errors.Is`) or any other error, or a batch of messages. -/
inductive RecvErr
  | canceled
  | other (e : GoErr)
deriving Repr, DecidableEq

inductive AcceptErr
  /-- Go `net.ErrClosed`, returned when the poll was cancelled -/
  | closed
  /-- any other receive error, returned unchanged -/
  | recvFailed (e : GoErr)
deriving Repr, DecidableEq

/-- Model of `Listener.Accept` together with the inner `Listener.accept`:
while the buffer is empty, issue one `ReceiveMessages` poll and append the
batch; pop the oldest buffered message; if its lease deadline is already
past, discard it and retry the whole loop; otherwise hand it out.
A `context.Canceled` poll error surfaces as `net.ErrClosed`.
Arguments: current time (ms), scripted poll outcomes, buffered messages.
Returns `none` when the scripted polls run out, otherwise the accept
outcome together with the remaining buffer and unconsumed script. -/
def acceptLoop (now : Int) :
    List (Except RecvErr (List Message)) → List Message →
    Option (Except AcceptErr
      (Message × List Message × List (Except RecvErr (List Message))))
  | script, m :: rest =>
      if m.visibilityTimeoutAt - now ≤ 0 then acceptLoop now script rest
      else some (.ok (m, rest, script))
  | [], [] => none
  | .error .canceled :: _, [] => some (.error .closed)
  | .error (.other e) :: _, [] => some (.error (.recvFailed e))
  | .ok msgs :: restScript, [] => acceptLoop now restScript msgs
  termination_by script buf => (script.length, buf.length)

/-- The sequence of messages an accept state can ever hand out, in arrival
order: the buffered messages followed by the scripted poll batches. -/
def msgSeq (script : List (Except RecvErr (List Message))) (buf : List Message) :
    List Message :=
  buf ++ script.flatMap (fun r => match r with | .ok msgs => msgs | .error _ => [])

/-! ## `conn.go`: `Conn.init` request construction -/

/-- Model of `Conn.init` (conn.go:51-97), instantiated with the default
`BodyOnlySerializer`: deserialize the message content (failure is latched
as `initErr`, reported by every read); on success annotate the request with
the message id, creation time, lease deadline and queue name headers. -/
def connInit (queue : String) (noBase64 : Bool) (msg : Message) : Except GoErr GoRequest :=
  match bodyOnlyDeserialize noBase64 msg.content with
  | .error e => .error e
  | .ok req =>
      .ok { req with
        header := req.header ++
          [("SimpleMQ-Message-ID", msg.id),
           ("SimpleMQ-Message-Created", formatRFC3339 msg.createdAt),
           ("SimpleMQ-Message-Visibility-Timeout", formatRFC3339 msg.visibilityTimeoutAt),
           ("SimpleMQ-Queue-Name", queue)] }

/-! ## Helper lemmas about the close-time extend loop -/

theorem closeRetryLoop_spec (now seconds : Int) (msgId : String) :
    ∀ (script : List (Except GoErr Int)) (vis v : Int) (calls : List QueueCall),
      closeRetryLoop now seconds msgId vis script = some (v, calls) →
      (∀ c ∈ calls, c = QueueCall.extendVisibilityTimeout msgId) ∧
      ((∀ x ∈ script, ∃ w, x = .ok w) →
        -(2 ^ 63) < seconds * 1000000000 → seconds * 1000000000 ≤ 2 ^ 63 - 1 →
        v - now ≥ seconds * 1000) := by
  intro script
  induction script with
  | nil =>
      intro vis v calls h
      unfold closeRetryLoop at h
      split at h
      · simp at h
      · rename_i hge
        rw [Option.some.injEq, Prod.mk.injEq] at h
        obtain ⟨h1, h2⟩ := h
        refine ⟨?_, fun _ hlo hhi => ?_⟩
        · intro c hc
          rw [← h2] at hc
          simp at hc
        · rw [← h1]
          exact retry_target_reached hlo hhi hge
  | cons head rest ih =>
      intro vis v calls h
      unfold closeRetryLoop at h
      split at h
      · cases head with
        | error e =>
            rw [Option.some.injEq, Prod.mk.injEq] at h
            obtain ⟨h1, h2⟩ := h
            refine ⟨?_, fun hok _ _ => ?_⟩
            · intro c hc
              rw [← h2] at hc
              simpa using hc
            · obtain ⟨w, hw⟩ := hok (Except.error e) (List.mem_cons_self _ _)
              exact Except.noConfusion hw
        | ok newVis =>
            rw [Option.map_eq_some'] at h
            obtain ⟨⟨v', calls'⟩, hloop, heq⟩ := h
            simp only [Prod.mk.injEq] at heq
            obtain ⟨rfl, rfl⟩ := heq
            obtain ⟨hcalls, hge⟩ := ih newVis v' calls' hloop
            refine ⟨?_, fun hok hlo hhi => ?_⟩
            · intro c hc
              rcases List.mem_cons.mp hc with rfl | hc2
              · rfl
              · exact hcalls c hc2
            · exact hge (fun x hx => hok x (List.mem_cons_of_mem _ hx)) hlo hhi
      · rename_i hge
        rw [Option.some.injEq, Prod.mk.injEq] at h
        obtain ⟨h1, h2⟩ := h
        refine ⟨?_, fun _ hlo hhi => ?_⟩
        · intro c hc
          rw [← h2] at hc
          simp at hc
        · rw [← h1]
          exact retry_target_reached hlo hhi hge

theorem connClose_parse_some (st : ConnState) (env : CloseEnv) (resp : GoResponse)
    (leftover : String) (hbuf : st.respBuffer ≠ "")
    (hparse : env.readResponse = (some resp, leftover)) :
    connClose st env = closeAfterParse { st with respBuffer := leftover } env resp := by
  unfold connClose
  rw [if_neg hbuf, hparse]

theorem handlerOutcome_none (env : CloseEnv) (resp : GoResponse)
    (hhandler : ∀ f, env.handleResponse = some f → f resp = none) :
    handlerOutcome env.handleResponse resp = none := by
  cases hh : env.handleResponse with
  | none => rfl
  | some f => simpa [handlerOutcome] using hhandler f hh

/-! ## Claim theorems: the close policy -/

/--
C1.  For every stream whose accumulated response buffer parses as a
structured response with a 2xx status, and whose configured response
observer (if any) succeeds, `Close` issues exactly one delete call for the
bound message id and no extend call; a delete failure is returned as the
close error, a delete success yields a nil return.
-/
theorem conn_close_2xx_single_delete
    (st : ConnState) (env : CloseEnv) (resp : GoResponse) (leftover : String)
    (hbuf : st.respBuffer ≠ "")
    (hparse : env.readResponse = (some resp, leftover))
    (hlo : 200 ≤ resp.statusCode) (hhi : resp.statusCode < 300)
    (hhandler : ∀ f, env.handleResponse = some f → f resp = none) :
    connClose st env =
      some ⟨(env.deleteResult.map fun e => "failed to delete message: " ++ e),
        [QueueCall.deleteMessage st.msg.id], { st with respBuffer := leftover }⟩ := by
  rw [connClose_parse_some st env resp leftover hbuf hparse]
  simp only [closeAfterParse, handlerOutcome_none env resp hhandler]
  rw [if_pos (And.intro hlo hhi)]
  cases hd : env.deleteResult with
  | none => rfl
  | some e => rfl

def w2xxSt : ConnState :=
  { msg := { id := "m1", content := [], createdAt := 0, visibilityTimeoutAt := 30000 },
    respBuffer := "resp" }

def w2xxEnv : CloseEnv :=
  { readResponse := (some ⟨200, ""⟩, ""),
    handleResponse := none, deleteResult := none, extendResults := [], now := 0 }

theorem conn_close_2xx_single_delete_witness :
    connClose w2xxSt w2xxEnv =
      some ⟨(w2xxEnv.deleteResult.map fun e => "failed to delete message: " ++ e),
        [QueueCall.deleteMessage w2xxSt.msg.id], { w2xxSt with respBuffer := "" }⟩ :=
  conn_close_2xx_single_delete w2xxSt w2xxEnv ⟨200, ""⟩ "" (by decide) rfl
    (by decide) (by decide) (fun f h => Option.noConfusion h)

/--
C4.  If a response observer is configured and it returns an error on the
parsed response, `Close` returns that error and issues no queue call at
all — in particular no delete — whatever the response status was.
-/
theorem conn_close_handler_error_aborts
    (st : ConnState) (env : CloseEnv) (resp : GoResponse) (leftover : String)
    (f : GoResponse → Option GoErr) (e : GoErr)
    (hbuf : st.respBuffer ≠ "")
    (hparse : env.readResponse = (some resp, leftover))
    (hconf : env.handleResponse = some f)
    (herr : f resp = some e) :
    connClose st env =
      some ⟨some ("failed to handle response: " ++ e), [],
        { st with respBuffer := leftover }⟩ := by
  rw [connClose_parse_some st env resp leftover hbuf hparse]
  simp only [closeAfterParse, handlerOutcome, hconf, herr]

def wHdlSt : ConnState :=
  { msg := { id := "m2", content := [], createdAt := 0, visibilityTimeoutAt := 30000 },
    respBuffer := "resp" }

def wHdlEnv : CloseEnv :=
  { readResponse := (some ⟨200, ""⟩, ""),
    handleResponse := some (fun _ => some "observer failed"),
    deleteResult := none, extendResults := [], now := 0 }

theorem conn_close_handler_error_aborts_witness :
    connClose wHdlSt wHdlEnv =
      some ⟨some ("failed to handle response: " ++ "observer failed"), [],
        { wHdlSt with respBuffer := "" }⟩ :=
  conn_close_handler_error_aborts wHdlSt wHdlEnv ⟨200, ""⟩ ""
    (fun _ => some "observer failed") "observer failed" (by decide) rfl rfl rfl

/--
C3 (amended).  For a stream closed with a non-2xx parsed response carrying
a non-empty Retry-After header: a non-numeric value makes `Close` return
nil with no queue call; a numeric value `n` makes `Close` return nil
having issued only extend calls (an extend failure is swallowed and
`Close` still returns nil), and when no scripted extend failed *and*
`n * 1e9` fits in int64 (|n| ≲ 9.22e9, i.e. the nanosecond product does
not wrap), the lease deadline on return is at least `n` seconds past the
close time.  Beyond that range the int64 product wraps negative and the
loop issues no extend at all — see the counterexample.
-/
theorem conn_close_retry_after
    (st : ConnState) (env : CloseEnv) (resp : GoResponse) (leftover : String)
    (hbuf : st.respBuffer ≠ "")
    (hparse : env.readResponse = (some resp, leftover))
    (hstatus : ¬(200 ≤ resp.statusCode ∧ resp.statusCode < 300))
    (hhandler : ∀ f, env.handleResponse = some f → f resp = none)
    (hra : resp.retryAfter ≠ "") :
    (goAtoi resp.retryAfter = none →
      connClose st env = some ⟨none, [], { st with respBuffer := leftover }⟩) ∧
    (∀ n, goAtoi resp.retryAfter = some n →
      ∀ r, connClose st env = some r →
        r.ret = none ∧
        (∀ c ∈ r.calls, c = QueueCall.extendVisibilityTimeout st.msg.id) ∧
        ((∀ x ∈ env.extendResults, ∃ w, x = Except.ok w) →
          -(2 ^ 63) < n * 1000000000 → n * 1000000000 ≤ 2 ^ 63 - 1 →
          r.state.msg.visibilityTimeoutAt - env.now ≥ n * 1000)) := by
  have hcc := connClose_parse_some st env resp leftover hbuf hparse
  have hcap : connClose st env =
      match goAtoi resp.retryAfter with
      | none => some ⟨none, [], { st with respBuffer := leftover }⟩
      | some seconds =>
          (closeRetryLoop env.now seconds st.msg.id
              st.msg.visibilityTimeoutAt env.extendResults).map
            (fun p =>
              ⟨none, p.2,
                { msg := { st.msg with visibilityTimeoutAt := p.1 },
                  respBuffer := leftover }⟩) := by
    rw [hcc]
    simp only [closeAfterParse, handlerOutcome_none env resp hhandler]
    rw [if_neg hstatus, if_pos hra]
  constructor
  · intro hnum
    rw [hcap, hnum]
  · intro n hnum r hr
    rw [hcap, hnum, Option.map_eq_some'] at hr
    obtain ⟨⟨v, calls⟩, hloop, heq⟩ := hr
    obtain ⟨hcalls, hge⟩ := closeRetryLoop_spec env.now n st.msg.id
      env.extendResults st.msg.visibilityTimeoutAt v calls hloop
    subst heq
    exact ⟨rfl, hcalls, fun hok hlo hhi => hge hok hlo hhi⟩

def wRetrySt : ConnState :=
  { msg := { id := "m3", content := [], createdAt := 0, visibilityTimeoutAt := 1000 },
    respBuffer := "resp" }

def wRetryEnv : CloseEnv :=
  { readResponse := (some ⟨503, "5"⟩, ""),
    handleResponse := none, deleteResult := none,
    extendResults := [.ok 3000, .ok 6000], now := 0 }

theorem conn_close_retry_after_witness :
    (goAtoi (GoResponse.mk 503 "5").retryAfter = none →
      connClose wRetrySt wRetryEnv = some ⟨none, [], { wRetrySt with respBuffer := "" }⟩) ∧
    (∀ n, goAtoi (GoResponse.mk 503 "5").retryAfter = some n →
      ∀ r, connClose wRetrySt wRetryEnv = some r →
        r.ret = none ∧
        (∀ c ∈ r.calls, c = QueueCall.extendVisibilityTimeout wRetrySt.msg.id) ∧
        ((∀ x ∈ wRetryEnv.extendResults, ∃ w, x = Except.ok w) →
          -(2 ^ 63) < n * 1000000000 → n * 1000000000 ≤ 2 ^ 63 - 1 →
          r.state.msg.visibilityTimeoutAt - wRetryEnv.now ≥ n * 1000)) :=
  conn_close_retry_after wRetrySt wRetryEnv ⟨503, "5"⟩ "" (by decide) rfl
    (by decide) (fun f h => Option.noConfusion h) (by decide)

def cexOvSt : ConnState :=
  { msg := { id := "m8", content := [], createdAt := 0, visibilityTimeoutAt := 1000 },
    respBuffer := "resp" }

def cexOvEnv : CloseEnv :=
  { readResponse := (some ⟨503, "10000000000"⟩, ""), handleResponse := none,
    deleteResult := none, extendResults := [.ok 2000], now := 0 }

/--
C3 counterexample: with the numeric header `Retry-After: 10000000000`,
`time.Duration(10000000000) * time.Second` wraps in int64 to
`-8446744073709551616` (conn.go:169), so despite the lease deadline being
only one second away and a successful extend being available, `Close`
issues *no* extend, returns nil, and leaves the deadline unchanged —
far short of the requested `10^10` seconds after close time.
-/
theorem conn_close_retry_after_overflow_cex :
    goAtoi "10000000000" = some 10000000000 ∧
    wrapInt64 (10000000000 * 1000000000) = -8446744073709551616 ∧
    connClose cexOvSt cexOvEnv =
      some ⟨none, [], { cexOvSt with respBuffer := "" }⟩ ∧
    (1000 : Int) - 0 < 10000000000 * 1000 :=
  ⟨by decide, by decide, rfl, by decide⟩

/-!
C2 counterexample material.  `Conn.Close` has no once-guard: its only gate
against re-running the lifecycle policy is that a second call usually finds
`respBuffer` empty.  But `http.ReadResponse(bufio.NewReader(&respBuffer), req)`
drains `respBuffer` through a `bufio.Reader` whose fill reads exactly 4096
bytes when at least 4096 are buffered, parses only the header block, never
reads the body, and is then discarded.  With the 4134-byte buffer below —
a 4096-byte response `cexR1` (41 header bytes, `Content-Length: 4055`, a
4055-byte body) followed by the 38-byte response `cexR2` — the first close
parses `cexR1`'s headers out of the single 4096-byte fill and leaves
exactly `cexR2` in `respBuffer`; a second close then parses `cexR2` and
deletes the message again.  The two scripted `readResponse` outcomes below
record precisely that stdlib behaviour.
-/

def cexR1 : String :=
  "HTTP/1.1 200 OK\r\nContent-Length: 4055\r\n\r\n" ++ String.mk (List.replicate 4055 ' ')

def cexR2 : String := "HTTP/1.1 200 OK\r\nContent-Length: 0\r\n\r\n"

theorem cexR1_length : cexR1.length = 4096 := by
  have h1 : ("HTTP/1.1 200 OK\r\nContent-Length: 4055\r\n\r\n" : String).length = 41 := by
    decide
  have h2 : (String.mk (List.replicate 4055 ' ')).length = 4055 := by
    show (List.replicate 4055 ' ').length = 4055
    rw [List.length_replicate]
  rw [cexR1, String.length_append, h1, h2]

def cexDoubleSt : ConnState :=
  { msg := { id := "m4", content := [], createdAt := 0, visibilityTimeoutAt := 30000 },
    respBuffer := cexR1 ++ cexR2 }

def cexDoubleEnv1 : CloseEnv :=
  { readResponse := (some ⟨200, ""⟩, cexR2), handleResponse := none,
    deleteResult := none, extendResults := [], now := 0 }

def cexDoubleEnv2 : CloseEnv :=
  { readResponse := (some ⟨200, ""⟩, ""), handleResponse := none,
    deleteResult := none, extendResults := [], now := 0 }

/--
C2 counterexample: two sequential `Close` calls on the connection holding
the 4134-byte buffer `cexR1 ++ cexR2` issue the delete call twice — the
claim that repeated closes never issue a second delete fails on this
input.
-/
theorem conn_close_twice_double_delete_cex :
    connCloseTwice cexDoubleSt cexDoubleEnv1 cexDoubleEnv2 =
      some (none, none,
        [QueueCall.deleteMessage "m4", QueueCall.deleteMessage "m4"]) := by rfl

/--
C2 amended.  A second `Close` issues no further queue call provided the
first `Close` left the response buffer empty — which is the case whenever
the accumulated response fits in the parser's single 4096-byte fill.  In
general (response buffers past 4096 bytes whose unread tail itself parses)
a repeated `Close` re-runs the lifecycle policy on the leftover and can
issue a second delete or extend, as the counterexample shows.
-/
theorem conn_close_twice_no_new_calls_when_drained
    (st : ConnState) (env1 env2 : CloseEnv) (r : CloseResult)
    (h1 : connClose st env1 = some r)
    (hdrained : r.state.respBuffer = "") :
    connCloseTwice st env1 env2 = some (r.ret, none, r.calls) := by
  unfold connCloseTwice
  rw [h1]
  have h2 : connClose r.state env2 = some ⟨none, [], r.state⟩ := by
    unfold connClose
    rw [if_pos hdrained]
  simp [h2]

def wDrainSt : ConnState :=
  { msg := { id := "m5", content := [], createdAt := 0, visibilityTimeoutAt := 30000 },
    respBuffer := "resp" }

def wDrainEnv : CloseEnv :=
  { readResponse := (some ⟨200, ""⟩, ""), handleResponse := none,
    deleteResult := none, extendResults := [], now := 0 }

theorem conn_close_twice_no_new_calls_when_drained_witness :
    connCloseTwice wDrainSt wDrainEnv wDrainEnv =
      some (none, none, [QueueCall.deleteMessage "m5"]) :=
  conn_close_twice_no_new_calls_when_drained wDrainSt wDrainEnv wDrainEnv
    ⟨none, [QueueCall.deleteMessage "m5"], { wDrainSt with respBuffer := "" }⟩
    rfl rfl

/-! ## Claim theorems: the transport -/

def cexApiEnv : TransportEnv :=
  { reqMethod := "POST", serializeResult := .ok [],
    sendResult := .error (.api ⟨0, "invalid api key"⟩) }

/--
C5 counterexample: a structured queue-API error whose numeric code does not
render as a three-character status — here code 0, which is what decoding an
error JSON without a `code` field yields — makes the synthesized text
`HTTP/1.1 0 ` unparseable, so `RoundTrip` returns a transport-level error
instead of a synthesized response, contradicting the claim for this input.
-/
theorem roundTrip_api_error_cex :
    roundTrip "q" cexApiEnv = .error .malformedStatus := rfl

/--
C5 amended.  `RoundTrip` propagates serializer errors unchanged and
synthesizes no response for them; on send success it synthesizes a 202
response with empty body and the queue-name, message-id and creation-time
headers; on a structured queue-API error *whose code renders as a valid
three-character status* it synthesizes a response with that code as status
and the queue-name header, whose plain-text body is the error message when
the re-parse admits a body (request method not HEAD, status not 1xx, 204
or 304) and is empty otherwise; any other send failure is propagated as a
transport-level error with no response.
-/
theorem roundTrip_spec (queue : String) (env : TransportEnv) :
    (∀ e, env.serializeResult = .error e →
      roundTrip queue env = .error (.serializeFailed e)) ∧
    (∀ content msg, env.serializeResult = .ok content → env.sendResult = .ok msg →
      roundTrip queue env = .ok
        { statusCode := 202,
          headers := [("Content-Type", "text/plain"), ("Content-Length", "0"),
            ("SimpleMQ-Queue-Name", queue), ("SimpleMQ-Message-ID", msg.id),
            ("SimpleMQ-Message-Created", formatRFC3339 msg.createdAt)],
          body := "" }) ∧
    (∀ content apiErr, env.serializeResult = .ok content →
      env.sendResult = .error (.api apiErr) → statusLineOK apiErr.code = true →
      bodyAllowed env.reqMethod apiErr.code = true →
      roundTrip queue env = .ok
        { statusCode := apiErr.code,
          headers := [("Content-Type", "text/plain"),
            ("Content-Length", toString apiErr.message.length),
            ("SimpleMQ-Queue-Name", queue)],
          body := apiErr.message }) ∧
    (∀ content apiErr, env.serializeResult = .ok content →
      env.sendResult = .error (.api apiErr) → statusLineOK apiErr.code = true →
      bodyAllowed env.reqMethod apiErr.code = false →
      roundTrip queue env = .ok
        { statusCode := apiErr.code,
          headers := [("Content-Type", "text/plain"),
            ("Content-Length", toString apiErr.message.length),
            ("SimpleMQ-Queue-Name", queue)],
          body := "" }) ∧
    (∀ content e, env.serializeResult = .ok content →
      env.sendResult = .error (.other e) →
      roundTrip queue env = .error (.sendFailed e)) := by
  refine ⟨?_, ?_, ?_, ?_, ?_⟩
  · intro e he
    unfold roundTrip
    rw [he]
  · intro content msg hs hm
    unfold roundTrip
    rw [hs, hm]
  · intro content apiErr hs hm hok hb
    simp [roundTrip, hs, hm, hok, hb]
  · intro content apiErr hs hm hok hb
    simp [roundTrip, hs, hm, hok, hb]
  · intro content e hs hm
    unfold roundTrip
    rw [hs, hm]

def wTEnv : TransportEnv :=
  { reqMethod := "POST", serializeResult := .ok [],
    sendResult := .error (.api ⟨401, "unauthorized"⟩) }

theorem roundTrip_spec_witness :
    roundTrip "test-queue" wTEnv = .ok
      { statusCode := 401,
        headers := [("Content-Type", "text/plain"),
          ("Content-Length", toString ("unauthorized" : String).length),
          ("SimpleMQ-Queue-Name", "test-queue")],
        body := "unauthorized" } :=
  (roundTrip_spec "test-queue" wTEnv).2.2.1 [] ⟨401, "unauthorized"⟩ rfl rfl
    (by decide) (by decide)

/-! ## Claim theorems: deadline setting -/

theorem setDeadlineLoop_allok (tms : Int) (extendAt : Nat → Except GoErr Int)
    (msgId : String) (hok : ∀ i, ∃ v, extendAt i = .ok v) :
    ∀ (rem idx : Nat) (cur : Int),
      (setDeadlineLoop tms extendAt msgId idx rem cur).1 = none ∧
      (setDeadlineLoop tms extendAt msgId idx rem cur).2.2.length ≤ rem ∧
      (∀ c ∈ (setDeadlineLoop tms extendAt msgId idx rem cur).2.2,
        c = QueueCall.extendVisibilityTimeout msgId) ∧
      (tms ≤ (setDeadlineLoop tms extendAt msgId idx rem cur).2.1 ∨
        (setDeadlineLoop tms extendAt msgId idx rem cur).2.2.length = rem) := by
  intro rem
  induction rem with
  | zero =>
      intro idx cur
      refine ⟨rfl, by simp [setDeadlineLoop], by simp [setDeadlineLoop], Or.inr rfl⟩
  | succ n ih =>
      intro idx cur
      by_cases hc : cur < tms
      · obtain ⟨v, hv⟩ := hok idx
        have hred : setDeadlineLoop tms extendAt msgId idx (n + 1) cur =
            ((setDeadlineLoop tms extendAt msgId (idx + 1) n v).1,
             (setDeadlineLoop tms extendAt msgId (idx + 1) n v).2.1,
             .extendVisibilityTimeout msgId ::
               (setDeadlineLoop tms extendAt msgId (idx + 1) n v).2.2) := by
          rw [setDeadlineLoop]
          rw [if_pos hc, hv]
        obtain ⟨ih1, ih2, ih3, ih4⟩ := ih (idx + 1) v
        rw [hred]
        refine ⟨ih1, by simpa using Nat.succ_le_succ ih2, ?_, ?_⟩
        · intro c hc2
          rcases List.mem_cons.mp hc2 with rfl | hc3
          · rfl
          · exact ih3 c hc3
        · rcases ih4 with h | h
          · exact Or.inl h
          · exact Or.inr (by simpa using h)
      · have hred : setDeadlineLoop tms extendAt msgId idx (n + 1) cur =
            (none, cur, []) := by
          rw [setDeadlineLoop]
          rw [if_neg hc]
        rw [hred]
        refine ⟨rfl, by simp, by simp, Or.inl ?_⟩
        show tms ≤ cur
        omega

/--
C7.  Deadline-setting: read-, write- and combined deadline behave
identically (the renewal loop has been cancelled and joined before any of
them proceeds); a zero deadline or one not in the future is a no-op
returning nil; a future deadline issues extend calls — updating the local
lease deadline from each result — until the lease deadline reaches the
target or the fixed budget of 10 attempts is exhausted, and exhausting the
budget is not reported as an error (no scripted extend fails here).
-/
theorem conn_setDeadline_spec (st : ConnState) (env : DeadlineEnv) :
    (∀ t, connSetReadDeadline st t env = connSetDeadline st t env ∧
          connSetWriteDeadline st t env = connSetDeadline st t env) ∧
    connSetDeadline st none env = (none, [], st) ∧
    (∀ tms, tms - env.now ≤ 0 → connSetDeadline st (some tms) env = (none, [], st)) ∧
    (∀ tms, 0 < tms - env.now → (∀ i, ∃ v, env.extendAt i = .ok v) →
      ∀ e calls st', connSetDeadline st (some tms) env = (e, calls, st') →
        e = none ∧ calls.length ≤ 10 ∧
        (∀ c ∈ calls, c = QueueCall.extendVisibilityTimeout st.msg.id) ∧
        (tms ≤ st'.msg.visibilityTimeoutAt ∨ calls.length = 10)) := by
  refine ⟨fun t => ⟨rfl, rfl⟩, rfl, ?_, ?_⟩
  · intro tms hpast
    rw [connSetDeadline]
    rw [if_pos hpast]
  · intro tms hfut hok e calls st' heq
    rw [connSetDeadline] at heq
    rw [if_neg (by omega)] at heq
    obtain ⟨h1, h2, h3, h4⟩ :=
      setDeadlineLoop_allok tms env.extendAt st.msg.id hok 10 0 st.msg.visibilityTimeoutAt
    simp only [Prod.mk.injEq] at heq
    obtain ⟨he, hcalls, hst⟩ := heq
    subst he
    subst hcalls
    subst hst
    exact ⟨h1, h2, h3, by simpa using h4⟩

def wDlSt : ConnState :=
  { msg := { id := "m6", content := [], createdAt := 0, visibilityTimeoutAt := 1000 },
    respBuffer := "" }

def wDlEnv : DeadlineEnv :=
  { extendAt := fun i => .ok (((i : Int) + 2) * 1000), now := 0 }

def wDlFinalSt : ConnState :=
  { msg := { id := "m6", content := [], createdAt := 0, visibilityTimeoutAt := 5000 },
    respBuffer := "" }

theorem conn_setDeadline_spec_witness :
    (none : Option GoErr) = none ∧
    (List.replicate 4 (QueueCall.extendVisibilityTimeout "m6")).length ≤ 10 ∧
    (∀ c ∈ List.replicate 4 (QueueCall.extendVisibilityTimeout "m6"),
      c = QueueCall.extendVisibilityTimeout wDlSt.msg.id) ∧
    ((5000 : Int) ≤ wDlFinalSt.msg.visibilityTimeoutAt ∨
      (List.replicate 4 (QueueCall.extendVisibilityTimeout "m6")).length = 10) :=
  (conn_setDeadline_spec wDlSt wDlEnv).2.2.2 5000 (by decide)
    (fun i => ⟨((i : Int) + 2) * 1000, rfl⟩) none
    (List.replicate 4 (QueueCall.extendVisibilityTimeout "m6")) wDlFinalSt rfl

/-! ## Claim theorems: the acceptor -/

/--
C6.  For every buffered state and scripted poll sequence, `Accept` never
hands out a message whose lease deadline is at (or past) the accept time;
and — when every scripted poll succeeds — the message it hands out is
exactly the first non-expired one of the arrival-ordered sequence (buffered
messages, then poll batches in order), the earlier ones all being expired
discards, with the post-accept state continuing at exactly the following
suffix (no reordering).
-/
theorem accept_order_no_expired (now : Int)
    (script : List (Except RecvErr (List Message))) (buf : List Message) :
    (∀ m rest script', acceptLoop now script buf = some (.ok (m, rest, script')) →
      0 < m.visibilityTimeoutAt - now) ∧
    ((∀ x ∈ script, ∃ msgs, x = .ok msgs) →
      ∀ m rest script', acceptLoop now script buf = some (.ok (m, rest, script')) →
        (msgSeq script buf).dropWhile (fun x => decide (x.visibilityTimeoutAt - now ≤ 0)) =
          m :: msgSeq script' rest) := by
  induction script, buf using acceptLoop.induct now with
  | case1 script m rest hexp ih =>
      have hred : acceptLoop now script (m :: rest) = acceptLoop now script rest := by
        rw [acceptLoop, if_pos hexp]
      rw [hred]
      obtain ⟨ih1, ih2⟩ := ih
      refine ⟨ih1, fun hok m' r' s' hacc => ?_⟩
      have hseq : msgSeq script (m :: rest) = m :: msgSeq script rest := by
        simp [msgSeq]
      rw [hseq, List.dropWhile_cons, if_pos (by simpa using hexp)]
      exact ih2 hok m' r' s' hacc
  | case2 script m rest hexp =>
      have hred : acceptLoop now script (m :: rest) = some (.ok (m, rest, script)) := by
        rw [acceptLoop, if_neg hexp]
      rw [hred]
      constructor
      · intro m' r' s' hacc
        simp only [Option.some.injEq, Except.ok.injEq, Prod.mk.injEq] at hacc
        obtain ⟨rfl, rfl, rfl⟩ := hacc
        omega
      · intro hok m' r' s' hacc
        simp only [Option.some.injEq, Except.ok.injEq, Prod.mk.injEq] at hacc
        obtain ⟨rfl, rfl, rfl⟩ := hacc
        have hseq : msgSeq script (m :: rest) = m :: msgSeq script rest := by
          simp [msgSeq]
        rw [hseq, List.dropWhile_cons, if_neg (by simpa using hexp)]
  | case3 =>
      refine ⟨fun m r s hacc => ?_, fun hok m r s hacc => ?_⟩ <;>
        simp [acceptLoop] at hacc
  | case4 tailScript =>
      refine ⟨fun m r s hacc => ?_, fun hok m r s hacc => ?_⟩ <;>
        simp [acceptLoop] at hacc
  | case5 e tailScript =>
      refine ⟨fun m r s hacc => ?_, fun hok m r s hacc => ?_⟩ <;>
        simp [acceptLoop] at hacc
  | case6 msgs restScript ih =>
      have hred : acceptLoop now (.ok msgs :: restScript) [] =
          acceptLoop now restScript msgs := by
        rw [acceptLoop]
      rw [hred]
      obtain ⟨ih1, ih2⟩ := ih
      refine ⟨ih1, fun hok m' r' s' hacc => ?_⟩
      have hseq : msgSeq (.ok msgs :: restScript) [] = msgSeq restScript msgs := by
        simp [msgSeq]
      rw [hseq]
      exact ih2 (fun x hx => hok x (List.mem_cons_of_mem _ hx)) m' r' s' hacc

def wExpMsg : Message :=
  { id := "old", content := [], createdAt := 0, visibilityTimeoutAt := 0 }

def wAliveMsg : Message :=
  { id := "new", content := [], createdAt := 0, visibilityTimeoutAt := 60000 }

theorem accept_order_no_expired_witness :
    (msgSeq [Except.ok [wExpMsg, wAliveMsg]] []).dropWhile
        (fun x => decide (x.visibilityTimeoutAt - 5 ≤ 0)) =
      wAliveMsg :: msgSeq [] [] :=
  (accept_order_no_expired 5 [Except.ok [wExpMsg, wAliveMsg]] []).2
    (fun x hx => ⟨[wExpMsg, wAliveMsg], by simpa using hx⟩)
    wAliveMsg [] []
    (by simp [acceptLoop, wExpMsg, wAliveMsg])

/-! ## Claim theorems: the serializer -/

theorem bodyOnlySerialize_true (req : GoRequest) (bs : List Nat)
    (hbody : req.body = some bs) :
    bodyOnlySerialize true req =
      if bs.length > 256 * 1024 then .error .tooLarge else .ok bs := by
  simp [bodyOnlySerialize, hbody]

theorem bodyOnlySerialize_false (req : GoRequest) (bs : List Nat)
    (hbody : req.body = some bs) :
    bodyOnlySerialize false req =
      if (b64encode bs).length > 256 * 1024 then .error .tooLarge
      else .ok (b64encode bs) := by
  simp [bodyOnlySerialize, hbody]

theorem bodyOnlyDeserialize_true (content : List Nat) :
    bodyOnlyDeserialize true content =
      .ok { method := "POST", urlPath := "/", header := [], body := some content } := by
  simp [bodyOnlyDeserialize, http_NewRequest]

theorem bodyOnlyDeserialize_false (content : List Nat) :
    bodyOnlyDeserialize false content =
      .ok { method := "POST", urlPath := "/", header := [],
            body := some (match b64decode content with
                          | some decoded => decoded
                          | none => content) } := by
  simp [bodyOnlyDeserialize, http_NewRequest]

/--
C8.  For every request with a readable body whose encoded form is at most
256 KiB, `Serialize` succeeds and `Deserialize (Serialize req)` (same
base64 configuration) yields a request whose body bytes equal the original
body bytes; and `Serialize` fails with `ErrTooLarge` exactly when the
encoded payload exceeds 256 KiB.
-/
theorem serializer_roundtrip (noBase64 : Bool) (req : GoRequest) (bs : List Nat)
    (hbody : req.body = some bs) (hbytes : ∀ x ∈ bs, x < 256) :
    ((if noBase64 then bs.length else (b64encode bs).length) ≤ 256 * 1024 →
      ∃ payload req2, bodyOnlySerialize noBase64 req = .ok payload ∧
        bodyOnlyDeserialize noBase64 payload = .ok req2 ∧ req2.body = some bs) ∧
    (bodyOnlySerialize noBase64 req = .error .tooLarge ↔
      256 * 1024 < (if noBase64 then bs.length else (b64encode bs).length)) := by
  cases noBase64 with
  | true =>
      rw [bodyOnlySerialize_true req bs hbody]
      refine ⟨fun hsize => ?_, ?_⟩
      · have hsize' : bs.length ≤ 256 * 1024 := by simpa using hsize
        rw [if_neg (by omega)]
        exact ⟨bs, _, rfl, bodyOnlyDeserialize_true bs, rfl⟩
      · constructor
        · intro h
          by_cases hgt : bs.length > 256 * 1024
          · have hg : 256 * 1024 < bs.length := by omega
            simpa using hg
          · rw [if_neg hgt] at h
            exact Except.noConfusion h
        · intro h
          have h' : 256 * 1024 < bs.length := by simpa using h
          rw [if_pos (by omega)]
  | false =>
      rw [bodyOnlySerialize_false req bs hbody]
      refine ⟨fun hsize => ?_, ?_⟩
      · have hsize' : (b64encode bs).length ≤ 256 * 1024 := by simpa using hsize
        rw [if_neg (by omega)]
        refine ⟨b64encode bs, _, rfl, bodyOnlyDeserialize_false (b64encode bs), ?_⟩
        simp [b64decode_b64encode bs hbytes]
      · constructor
        · intro h
          by_cases hgt : (b64encode bs).length > 256 * 1024
          · have hg : 256 * 1024 < (b64encode bs).length := by omega
            simpa using hg
          · rw [if_neg hgt] at h
            exact Except.noConfusion h
        · intro h
          have h' : 256 * 1024 < (b64encode bs).length := by simpa using h
          rw [if_pos (by omega)]

def wRtReq : GoRequest :=
  { method := "POST", urlPath := "/api/items", header := [], body := some [104, 105] }

theorem serializer_roundtrip_witness :
    ((if false then ([104, 105] : List Nat).length
      else (b64encode [104, 105]).length) ≤ 256 * 1024 →
      ∃ payload req2, bodyOnlySerialize false wRtReq = .ok payload ∧
        bodyOnlyDeserialize false payload = .ok req2 ∧ req2.body = some [104, 105]) ∧
    (bodyOnlySerialize false wRtReq = .error .tooLarge ↔
      256 * 1024 < (if false then ([104, 105] : List Nat).length
        else (b64encode [104, 105]).length)) :=
  serializer_roundtrip false wRtReq [104, 105] rfl (by decide)

/--
C9 counterexample: content that is not valid base64 (the single byte `!`)
does not make the default `Deserialize` fail — the decode error is
swallowed and the raw content is used as the body, so a request is
returned with no error.
-/
theorem deserialize_malformed_no_error_cex :
    b64decode [33] = none ∧
    bodyOnlyDeserialize false [33] =
      .ok { method := "POST", urlPath := "/", header := [], body := some [33] } :=
  ⟨rfl, rfl⟩

/--
C9 amended.  The default serializer's `Deserialize` never fails: content
that does not decode as base64 (when base64 mode is in use) is silently
treated as the raw request body, and the fixed `POST /` request
construction cannot fail, so every payload yields a request.
-/
theorem deserialize_never_fails (noBase64 : Bool) (content : List Nat) :
    ∃ req, bodyOnlyDeserialize noBase64 content = .ok req := by
  unfold bodyOnlyDeserialize http_NewRequest
  rw [if_neg (by decide : ¬("POST" : String) = "")]
  exact ⟨_, rfl⟩

/--
C10.  Whenever stream construction succeeds with the default serializer,
the request handed to the application is a `POST` to `/` whose body is the
payload (base64-decoded exactly when base64 mode is enabled and the
content decodes); the original request's method, path and headers are
never reconstructed from the payload.
-/
theorem conn_init_always_post_root (queue : String) (noBase64 : Bool) (msg : Message)
    (req : GoRequest) (h : connInit queue noBase64 msg = .ok req) :
    req.method = "POST" ∧ req.urlPath = "/" ∧
    req.body = some (if noBase64 then msg.content else
      match b64decode msg.content with
      | some decoded => decoded
      | none => msg.content) := by
  unfold connInit bodyOnlyDeserialize http_NewRequest at h
  rw [if_neg (by decide : ¬("POST" : String) = "")] at h
  simp only [Except.ok.injEq] at h
  subst h
  exact ⟨rfl, rfl, rfl⟩

def wInitMsg : Message :=
  { id := "m7", content := [97, 71, 107, 61, 10], createdAt := 1000,
    visibilityTimeoutAt := 60000 }

theorem conn_init_always_post_root_witness :
    ∃ req, connInit "q" false wInitMsg = .ok req ∧
      req.method = "POST" ∧ req.urlPath = "/" ∧
      req.body = some (if false then wInitMsg.content else
        match b64decode wInitMsg.content with
        | some decoded => decoded
        | none => wInitMsg.content) := by
  refine ⟨_, rfl, conn_init_always_post_root "q" false wInitMsg _ rfl⟩
